import Mathlib

/-!
Verification of the text-to-PDF pipeline of `src/main.py`.

Text is embedded as `List Char` (named `Str` below); the Python string
operations used by the source (`str.strip`, `str.split`, `in`,
`str.isupper`) are given executable Lean counterparts over `List Char`,
restricted to the ASCII fragment (whitespace is the six ASCII whitespace
characters, cased characters are the ASCII letters).
-/

namespace ProjectBot

/-- A piece of text, as a list of characters. -/
abbrev Str := List Char

/-- ASCII whitespace, the characters removed by Python `str.strip()`. -/
def isSpace (c : Char) : Bool :=
  c == ' ' || c == '\t' || c == '\n' || c == '\r' || c == '\x0b' || c == '\x0c'

/-- Python `str.strip()`: drop whitespace from both ends. -/
def strip (l : Str) : Str :=
  ((l.dropWhile isSpace).reverse.dropWhile isSpace).reverse

/-- Python `str.split(sep)` for a one-character separator: splitting the
empty string gives one empty field, and every separator occurrence starts a
new field (so `n` separators give `n+1` fields, possibly empty). -/
def splitOnChar (sep : Char) : Str → List Str
  | [] => [[]]
  | c :: cs =>
    if c = sep then [] :: splitOnChar sep cs
    else
      match splitOnChar sep cs with
      | [] => [[c]]
      | r :: rs => (c :: r) :: rs

/-- Python `str.isupper()` on the ASCII fragment: at least one cased
character, and no cased character is lowercase. -/
def pyIsUpper (l : Str) : Bool :=
  l.any Char.isAlpha && l.all (fun c => !c.isLower)

/-- `is_heading` from `src/main.py`: the trimmed line is shorter than 60
characters and fully upper-case. -/
def is_heading (line : Str) : Bool :=
  if (strip line).length < 60 then
    if pyIsUpper (strip line) then true else false
  else false

/-- The comma-containing lines of a text, in order (the lines
`detect_table_data` turns into table rows). -/
def commaLines (t : Str) : List Str :=
  (splitOnChar '\n' t).filter (fun l => l.contains ',')

/-- The table rows read off a text: each comma-containing line, split on
commas with every cell stripped. -/
def rowsOf (t : Str) : List (List Str) :=
  (commaLines t).map (fun line => (splitOnChar ',' line).map strip)

/-- `detect_table_data` from `src/main.py`: strip the text, split into
lines, turn every comma-containing line into a row of stripped cells, and
return the rows only when at least two were found. -/
def detect_table_data (text : Str) : Option (List (List Str)) :=
  let table_data := rowsOf (strip text)
  if 2 ≤ table_data.length then some table_data else none

/-- The abstract layout blocks `generate_pdf` appends to `elements`:
`Spacer(1, 8)`, `Paragraph(text, heading_style)`,
`Paragraph(text, body_style)`, and `Table(table_data)`. -/
inductive LayoutBlock where
  | spacer : LayoutBlock
  | heading : Str → LayoutBlock
  | paragraph : Str → LayoutBlock
  | tableBlock : List (List Str) → LayoutBlock
  deriving DecidableEq

/-- The role `generate_pdf`'s prose loop assigns to one line. -/
inductive LineRole where
  | Blank : LineRole
  | Heading : LineRole
  | Body : LineRole
  deriving DecidableEq

/-- The per-line classification inlined in `generate_pdf`'s prose loop:
blank when the stripped line is empty, else heading per `is_heading`,
else body. -/
def classify (line : Str) : LineRole :=
  if (strip line).isEmpty then LineRole.Blank
  else if is_heading line then LineRole.Heading
  else LineRole.Body

/-- The block `generate_pdf`'s prose loop emits for one line: a spacer for
a blank line, otherwise a heading or body paragraph carrying the stripped
line. -/
def line_block (line : Str) : LayoutBlock :=
  if (strip line).isEmpty then LayoutBlock.spacer
  else if is_heading line then LayoutBlock.heading (strip line)
  else LayoutBlock.paragraph (strip line)

/-- The element list `generate_pdf` from `src/main.py` builds: one table
block when `detect_table_data` finds a table, otherwise one block per line
of the (unstripped) content. -/
def generate_pdf_elements (content : Str) : List LayoutBlock :=
  match detect_table_data content with
  | some table_data => [LayoutBlock.tableBlock table_data]
  | none => (splitOnChar '\n' content).map line_block

/-! Model of the renderer (`SimpleDocTemplate`) and of the Telegram/Gemini
orchestration in `src/main.py`. -/

/-- One physical page of the built document: the blocks laid out on it and
the page-number decorations stamped on it. -/
structure Page where
  content : List LayoutBlock
  pageNumbers : List Nat
  deriving DecidableEq

/-- Pages of the document, numbered from `n` upward: each page carries the
decorations its per-page callback draws. -/
def buildPages (onPage : Nat → List Nat) : Nat → List (List LayoutBlock) → List Page
  | _, [] => []
  | n, content :: rest => ⟨content, onPage n⟩ :: buildPages onPage (n + 1) rest

/-- Model of reportlab `SimpleDocTemplate.build`: pagination (how many
blocks fit one page) belongs to the external layout engine and is left
abstract as `paginate`; page decorations come only from the per-page
callbacks, and `build(elements)` called without `onFirstPage` /
`onLaterPages` uses the library default, which draws nothing. -/
def buildDocument (paginate : List LayoutBlock → List (List LayoutBlock))
    (onPage : Nat → List Nat) (elements : List LayoutBlock) : List Page :=
  buildPages onPage 1 (paginate elements)

/-- `generate_pdf` from `src/main.py` at the page level: it assembles
`elements` and calls `doc.build(elements)` with no page callbacks, so
every page gets the default (empty) decoration. -/
def generate_pdf (paginate : List LayoutBlock → List (List LayoutBlock))
    (content : Str) : List Page :=
  buildDocument paginate (fun _ => []) (generate_pdf_elements content)

/-- A pagination placing every element on one page, used to instantiate
the abstract layout engine on concrete inputs. -/
def singlePagePaginate (elements : List LayoutBlock) : List (List LayoutBlock) :=
  [elements]

/-- The failure raised by the external Gemini completion service
(`ServiceError`: unavailable, quota exceeded, network failure). -/
inductive ServiceFailure where
  | serviceError : ServiceFailure
  deriving DecidableEq

/-- The fixed prompt `complete_text_with_gemini` wraps around the user
text before sending it to the service. -/
def gemini_prompt (text : Str) : Str :=
  ("\n    You are an expert academic project writer.\n    Complete the following project content professionally.\n    Do not add unnecessary fluff.\n    Keep headings structured.\n\n    Text:\n    ").data
    ++ text ++ ("\n    ").data

/-- `complete_text_with_gemini` from `src/main.py`: sends the wrapped
prompt to the external service (`model.generate_content`) and returns the
response text; it installs no error handler, so a service failure
propagates to the caller. -/
def complete_text_with_gemini (generate_content : Str → Except ServiceFailure Str)
    (text : Str) : Except ServiceFailure Str :=
  generate_content (gemini_prompt text)

/-- What the user observes from one `handle_text` invocation: the chat
messages sent, the document sent (if any), and the exception that escaped
the handler (if any). -/
structure HandlerResult where
  messagesSent : List Str
  documentSent : Option (Str × List LayoutBlock)
  raised : Option ServiceFailure
  deriving DecidableEq

/-- `handle_text` from `src/main.py`: replies "Processing your
project...", calls `complete_text_with_gemini` with no try/except, then
generates and sends the PDF. The sent file is represented by its element
list (see `generate_pdf` for the page level). -/
def handle_text (generate_content : Str → Except ServiceFailure Str)
    (user_text : Str) : HandlerResult :=
  match complete_text_with_gemini generate_content user_text with
  | Except.error e =>
    { messagesSent := [("Processing your project...").data]
      documentSent := none
      raised := some e }
  | Except.ok completed_text =>
    { messagesSent := [("Processing your project...").data]
      documentSent := some (("Professional_Project.pdf").data,
        generate_pdf_elements completed_text)
      raised := none }

/-- Module-level configuration in `src/main.py`: `GEMINI_API_KEY` is read
from the environment (possibly absent) and handed to `genai.configure`
unconditionally. -/
def configured_api_key (env : Str → Option Str) : Option Str :=
  env ("GEMINI_API_KEY").data

/-- The whole text-message path: the external completion service sees the
key the module configured (the environment value, or null when absent) and
`handle_text` runs against it. No code path consults the key before
calling the completion service. -/
def bot_pipeline (env : Str → Option Str)
    (service : Option Str → Str → Except ServiceFailure Str)
    (user_text : Str) : HandlerResult :=
  handle_text (service (configured_api_key env)) user_text

/-- A completion service that fails every request. -/
def failingService : Str → Except ServiceFailure Str :=
  fun _ => Except.error ServiceFailure.serviceError

/-- An environment with no variables set. -/
def emptyEnv : Str → Option Str := fun _ => none

/-- A completion service that rejects unauthenticated requests (no API
key) and otherwise echoes the prompt back. -/
def keyRequiringService : Option Str → Str → Except ServiceFailure Str :=
  fun key prompt =>
    match key with
    | none => Except.error ServiceFailure.serviceError
    | some _ => Except.ok prompt

/-! Helper lemmas about `splitOnChar`, `List.dropWhile`, `strip` and
`pyIsUpper`. -/

theorem splitOnChar_ne_nil (sep : Char) (l : Str) : splitOnChar sep l ≠ [] := by
  induction l with
  | nil => simp [splitOnChar]
  | cons c cs ih =>
    by_cases hc : c = sep
    · simp [splitOnChar, hc]
    · simp only [splitOnChar, if_neg hc]
      cases h : splitOnChar sep cs with
      | nil => simp
      | cons r rs => simp

theorem length_splitOnChar (sep : Char) (l : Str) :
    (splitOnChar sep l).length = l.count sep + 1 := by
  induction l with
  | nil => simp [splitOnChar]
  | cons c cs ih =>
    by_cases hc : c = sep
    · subst hc
      simp [splitOnChar, List.count_cons, ih]
    · simp only [splitOnChar, if_neg hc]
      cases h : splitOnChar sep cs with
      | nil => exact absurd h (splitOnChar_ne_nil sep cs)
      | cons r rs =>
        rw [h] at ih
        simp only [List.length_cons, List.count_cons] at ih ⊢
        have hbeq : (c == sep) = false := by simp [hc]
        rw [hbeq]
        simpa using ih

theorem dropWhile_head_false {α : Type} {p : α → Bool} :
    ∀ {l : List α} {x xs}, List.dropWhile p l = x :: xs → p x = false := by
  intro l
  induction l with
  | nil => intro x xs h; simp [List.dropWhile] at h
  | cons c cs ih =>
    intro x xs h
    rw [List.dropWhile_cons] at h
    by_cases hc : p c = true
    · rw [if_pos hc] at h
      exact ih h
    · rw [if_neg hc] at h
      injection h with h1 h2
      subst h1
      simpa using hc

theorem dropWhile_of_head_false {α : Type} {p : α → Bool} {l : List α}
    (h : ∀ x xs, l = x :: xs → p x = false) : List.dropWhile p l = l := by
  cases l with
  | nil => rfl
  | cons x xs => rw [List.dropWhile_cons, if_neg (by simp [h x xs rfl])]

theorem dropWhile_idem {α : Type} (p : α → Bool) (l : List α) :
    List.dropWhile p (List.dropWhile p l) = List.dropWhile p l := by
  cases h : List.dropWhile p l with
  | nil => rfl
  | cons x xs =>
    have hx := dropWhile_head_false h
    rw [List.dropWhile_cons, if_neg (by simp [hx])]

theorem dropWhile_append_of_ne_nil {α : Type} {p : α → Bool} {l : List α}
    (h : List.dropWhile p l ≠ []) (m : List α) :
    List.dropWhile p (l ++ m) = List.dropWhile p l ++ m := by
  induction l with
  | nil => simp at h
  | cons c cs ih =>
    rw [List.cons_append, List.dropWhile_cons, List.dropWhile_cons]
    by_cases hc : p c = true
    · rw [if_pos hc, if_pos hc]
      rw [List.dropWhile_cons, if_pos hc] at h
      exact ih h
    · rw [if_neg hc, if_neg hc, List.cons_append]

theorem dropWhile_append_of_nil {α : Type} {p : α → Bool} {l : List α}
    (h : List.dropWhile p l = []) (m : List α) :
    List.dropWhile p (l ++ m) = List.dropWhile p m := by
  induction l with
  | nil => simp
  | cons c cs ih =>
    rw [List.dropWhile_cons] at h
    by_cases hc : p c = true
    · rw [if_pos hc] at h
      rw [List.cons_append, List.dropWhile_cons, if_pos hc]
      exact ih h
    · rw [if_neg hc] at h
      simp at h

theorem exists_takeWhile_decomp {α : Type} (p : α → Bool) (l : List α) :
    ∃ t, l = t ++ List.dropWhile p l ∧ ∀ x ∈ t, p x = true := by
  refine ⟨List.takeWhile p l, ?_, ?_⟩
  · exact (List.takeWhile_append_dropWhile (p := p) (l := l)).symm
  · intro x hx
    exact List.mem_takeWhile_imp hx

theorem strip_cons_space {c : Char} (hc : isSpace c = true) (l : Str) :
    strip (c :: l) = strip l := by
  unfold strip
  rw [List.dropWhile_cons, if_pos hc]

theorem strip_append_space {c : Char} (hc : isSpace c = true) (l : Str) :
    strip (l ++ [c]) = strip l := by
  unfold strip
  by_cases h : List.dropWhile isSpace l = []
  · rw [dropWhile_append_of_nil h, h]
    simp [List.dropWhile_cons, hc]
  · rw [dropWhile_append_of_ne_nil h, List.reverse_append]
    simp only [List.reverse_cons, List.reverse_nil, List.nil_append, List.singleton_append]
    rw [List.dropWhile_cons, if_pos hc]

theorem strip_head_false (l : Str) :
    ∀ x xs, strip l = x :: xs → isSpace x = false := by
  intro x xs h
  obtain ⟨t, ht, _⟩ := exists_takeWhile_decomp isSpace (List.dropWhile isSpace l).reverse
  have hA : List.dropWhile isSpace l
      = (List.dropWhile isSpace (List.dropWhile isSpace l).reverse).reverse ++ t.reverse := by
    have h2 := congrArg List.reverse ht
    simpa [List.reverse_append] using h2
  rw [show strip l
      = (List.dropWhile isSpace (List.dropWhile isSpace l).reverse).reverse from rfl] at h
  rw [h] at hA
  exact dropWhile_head_false (by simpa using hA)

theorem strip_idem (l : Str) : strip (strip l) = strip l := by
  have S1 : List.dropWhile isSpace (strip l) = strip l :=
    dropWhile_of_head_false (fun x xs h => strip_head_false l x xs h)
  have S2 : List.dropWhile isSpace (strip l).reverse = (strip l).reverse := by
    show List.dropWhile isSpace
        (List.dropWhile isSpace (List.dropWhile isSpace l).reverse).reverse.reverse
      = (List.dropWhile isSpace (List.dropWhile isSpace l).reverse).reverse.reverse
    rw [List.reverse_reverse]
    exact dropWhile_idem _ _
  show ((List.dropWhile isSpace (strip l)).reverse.dropWhile isSpace).reverse = strip l
  rw [S1, S2, List.reverse_reverse]

theorem space_not_alpha {c : Char} (h : isSpace c = true) : c.isAlpha = false := by
  simp only [isSpace, Bool.or_eq_true, beq_iff_eq] at h
  rcases h with ((((h | h) | h) | h) | h) | h <;> subst h <;> decide

theorem space_not_lower {c : Char} (h : isSpace c = true) : c.isLower = false := by
  simp only [isSpace, Bool.or_eq_true, beq_iff_eq] at h
  rcases h with ((((h | h) | h) | h) | h) | h <;> subst h <;> decide

theorem any_dropWhile_space (q : Char → Bool) (hq : ∀ c, isSpace c = true → q c = false)
    (l : Str) : (List.dropWhile isSpace l).any q = l.any q := by
  induction l with
  | nil => rfl
  | cons c cs ih =>
    rw [List.dropWhile_cons]
    by_cases hc : isSpace c = true
    · rw [if_pos hc, ih]
      simp [List.any_cons, hq c hc]
    · rw [if_neg hc]

theorem all_dropWhile_space (q : Char → Bool) (hq : ∀ c, isSpace c = true → q c = true)
    (l : Str) : (List.dropWhile isSpace l).all q = l.all q := by
  induction l with
  | nil => rfl
  | cons c cs ih =>
    rw [List.dropWhile_cons]
    by_cases hc : isSpace c = true
    · rw [if_pos hc, ih]
      simp [List.all_cons, hq c hc]
    · rw [if_neg hc]

theorem pyIsUpper_strip (l : Str) : pyIsUpper (strip l) = pyIsUpper l := by
  unfold pyIsUpper strip
  rw [List.any_reverse, List.all_reverse,
    any_dropWhile_space _ (fun c h => space_not_alpha h),
    all_dropWhile_space _ (fun c h => by simp [space_not_lower h]),
    List.any_reverse, List.all_reverse,
    any_dropWhile_space _ (fun c h => space_not_alpha h),
    all_dropWhile_space _ (fun c h => by simp [space_not_lower h])]

theorem splitOnChar_cons_sep (sep : Char) (cs : Str) :
    splitOnChar sep (sep :: cs) = [] :: splitOnChar sep cs := by
  simp [splitOnChar]

theorem splitOnChar_cons_nonsep {sep c : Char} (hc : c ≠ sep) {cs : Str} {r : Str}
    {rs : List Str} (h : splitOnChar sep cs = r :: rs) :
    splitOnChar sep (c :: cs) = (c :: r) :: rs := by
  simp only [splitOnChar, if_neg hc, h]

theorem splitOnChar_append_sep (sep : Char) (l : Str) :
    splitOnChar sep (l ++ [sep]) = splitOnChar sep l ++ [[]] := by
  induction l with
  | nil => simp [splitOnChar]
  | cons a l' ih =>
    rw [List.cons_append]
    by_cases ha : a = sep
    · subst ha
      rw [splitOnChar_cons_sep, splitOnChar_cons_sep, ih, List.cons_append]
    · cases h : splitOnChar sep l' with
      | nil => exact absurd h (splitOnChar_ne_nil sep l')
      | cons r rs =>
        have h2 : splitOnChar sep (l' ++ [sep]) = r :: (rs ++ [[]]) := by
          rw [ih, h, List.cons_append]
        rw [splitOnChar_cons_nonsep ha h2, splitOnChar_cons_nonsep ha h, List.cons_append]

theorem splitOnChar_append_nonsep (sep c : Char) (hc : c ≠ sep) (l : Str) :
    ∃ pre last, splitOnChar sep l = pre ++ [last] ∧
      splitOnChar sep (l ++ [c]) = pre ++ [last ++ [c]] := by
  induction l with
  | nil =>
    refine ⟨[], [], by simp [splitOnChar], ?_⟩
    rw [List.nil_append,
      show splitOnChar sep [c] = [[c]] from by simp [splitOnChar, if_neg hc]]
    simp
  | cons a l' ih =>
    obtain ⟨pre, last, h1, h2⟩ := ih
    rw [List.cons_append]
    by_cases ha : a = sep
    · subst ha
      refine ⟨[] :: pre, last, ?_, ?_⟩
      · rw [splitOnChar_cons_sep, h1, List.cons_append]
      · rw [splitOnChar_cons_sep, h2, List.cons_append]
    · cases pre with
      | nil =>
        rw [List.nil_append] at h1 h2
        refine ⟨[], a :: last, ?_, ?_⟩
        · rw [splitOnChar_cons_nonsep ha h1, List.nil_append]
        · rw [splitOnChar_cons_nonsep ha h2]
          simp
      | cons p0 ps =>
        rw [List.cons_append] at h1 h2
        refine ⟨(a :: p0) :: ps, last, ?_, ?_⟩
        · rw [splitOnChar_cons_nonsep ha h1, List.cons_append]
        · rw [splitOnChar_cons_nonsep ha h2, List.cons_append]

theorem space_ne_comma {c : Char} (h : isSpace c = true) : c ≠ ',' := by
  simp only [isSpace, Bool.or_eq_true, beq_iff_eq] at h
  rcases h with ((((h | h) | h) | h) | h) | h <;> subst h <;> decide

theorem contains_cons_noncomma {c : Char} (hc : c ≠ ',') (l : Str) :
    (c :: l).contains ',' = l.contains ',' := by
  simp [List.contains_cons, hc, Ne.symm hc]

theorem contains_append_noncomma {c : Char} (hc : c ≠ ',') (l : Str) :
    (l ++ [c]).contains ',' = l.contains ',' := by
  rw [List.contains_eq_any_beq, List.contains_eq_any_beq, List.any_append]
  simp [Ne.symm hc]

theorem rowCells_cons_space {c : Char} (hc : isSpace c = true) (line : Str) :
    (splitOnChar ',' (c :: line)).map strip = (splitOnChar ',' line).map strip := by
  simp only [splitOnChar, if_neg (space_ne_comma hc)]
  cases h : splitOnChar ',' line with
  | nil => exact absurd h (splitOnChar_ne_nil ',' line)
  | cons r1 r1s => simp [strip_cons_space hc]

theorem rowCells_append_space {c : Char} (hc : isSpace c = true) (line : Str) :
    (splitOnChar ',' (line ++ [c])).map strip = (splitOnChar ',' line).map strip := by
  obtain ⟨pre, last, h1, h2⟩ := splitOnChar_append_nonsep ',' c (space_ne_comma hc) line
  rw [h1, h2]
  simp [strip_append_space hc]

theorem rowsOf_cons_space {c : Char} (hc : isSpace c = true) (t : Str) :
    rowsOf (c :: t) = rowsOf t := by
  by_cases hn : c = '\n'
  · subst hn
    unfold rowsOf commaLines
    simp [splitOnChar]
  · unfold rowsOf commaLines
    simp only [splitOnChar, if_neg hn]
    cases h : splitOnChar '\n' t with
    | nil => exact absurd h (splitOnChar_ne_nil '\n' t)
    | cons r rs =>
      simp only [List.filter_cons, contains_cons_noncomma (space_ne_comma hc) r]
      by_cases hr : ',' ∈ r
      · simp [hr, rowCells_cons_space hc]
      · simp [hr]

theorem rowsOf_concat_space {c : Char} (hc : isSpace c = true) (t : Str) :
    rowsOf (t ++ [c]) = rowsOf t := by
  by_cases hn : c = '\n'
  · subst hn
    unfold rowsOf commaLines
    rw [splitOnChar_append_sep]
    simp [List.filter_append]
  · obtain ⟨pre, last, h1, h2⟩ := splitOnChar_append_nonsep '\n' c hn t
    unfold rowsOf commaLines
    rw [h1, h2]
    have hcc : ¬(',' = c) := fun h => space_ne_comma hc h.symm
    by_cases hl : ',' ∈ last
    · simp [List.filter_append, List.filter_cons, List.mem_append, hl, hcc,
        rowCells_append_space hc]
    · simp [List.filter_append, List.filter_cons, List.mem_append, hl, hcc]

theorem rowsOf_dropWhile (t : Str) :
    rowsOf (List.dropWhile isSpace t) = rowsOf t := by
  induction t with
  | nil => rfl
  | cons c cs ih =>
    rw [List.dropWhile_cons]
    by_cases hc : isSpace c = true
    · rw [if_pos hc, ih, rowsOf_cons_space hc]
    · rw [if_neg hc]

theorem rowsOf_append_spaces (t ws : Str) (hws : ∀ c ∈ ws, isSpace c = true) :
    rowsOf (t ++ ws) = rowsOf t := by
  revert hws
  induction ws generalizing t with
  | nil => intro _; simp
  | cons c ws' ih =>
    intro hws
    rw [show t ++ c :: ws' = (t ++ [c]) ++ ws' by simp]
    rw [ih (t ++ [c]) (fun x hx => hws x (List.mem_cons_of_mem c hx))]
    exact rowsOf_concat_space (hws c (List.mem_cons_self c ws')) t

theorem rowsOf_strip (t : Str) : rowsOf (strip t) = rowsOf t := by
  have h1 : rowsOf (List.dropWhile isSpace t) = rowsOf t := rowsOf_dropWhile t
  obtain ⟨tw, htw, hmem⟩ := exists_takeWhile_decomp isSpace (List.dropWhile isSpace t).reverse
  have h2 : List.dropWhile isSpace t = strip t ++ tw.reverse := by
    have h3 := congrArg List.reverse htw
    simpa [List.reverse_append, strip] using h3
  rw [← h1, h2]
  exact (rowsOf_append_spaces (strip t) tw.reverse
    (fun c hc => hmem c (List.mem_reverse.mp hc))).symm

theorem detect_table_data_eq (text : Str) :
    detect_table_data text
      = if 2 ≤ (rowsOf text).length then some (rowsOf text) else none := by
  unfold detect_table_data
  rw [rowsOf_strip]

example : strip ("  a b ").data = ("a b").data := by decide
example : splitOnChar ',' (",").data = [[], []] := by decide
example : is_heading ("TITLE").data = true := by decide
example : is_heading ("This is a body sentence.").data = false := by decide
example :
    detect_table_data ("Name, Age, Class\nRam, 14, 8\nShyam, 15, 9").data =
      some [[("Name").data, ("Age").data, ("Class").data],
            [("Ram").data, ("14").data, ("8").data],
            [("Shyam").data, ("15").data, ("9").data]] := by decide
example : detect_table_data ("a,b").data = none := by decide
example :
    generate_pdf_elements ("TITLE\n\nThis is a body sentence.").data =
      [LayoutBlock.heading ("TITLE").data, LayoutBlock.spacer,
       LayoutBlock.paragraph ("This is a body sentence.").data] := by decide

theorem buildPages_no_decoration (n : Nat) (L : List (List LayoutBlock)) (p : Page)
    (hp : p ∈ buildPages (fun _ => []) n L) : p.pageNumbers = [] := by
  induction L generalizing n with
  | nil => simp [buildPages] at hp
  | cons content rest ih =>
    rw [buildPages] at hp
    rcases List.mem_cons.mp hp with h | h
    · rw [h]
    · exact ih (n + 1) h

theorem line_block_eq_classify (line : Str) :
    line_block line
      = match classify line with
        | LineRole.Blank => LayoutBlock.spacer
        | LineRole.Heading => LayoutBlock.heading (strip line)
        | LineRole.Body => LayoutBlock.paragraph (strip line) := by
  unfold line_block classify
  by_cases h1 : (strip line).isEmpty = true
  · simp [h1]
  · by_cases h2 : is_heading line = true <;> simp [h1, h2]

/-! The claims. -/

/-- C1 counterexample: with the completion service raising `ServiceError`,
`handle_text` on input "HELLO" sends no document and lets the error escape
the handler — it does not fall back to the original text. -/
theorem C1_counterexample :
    (handle_text failingService ("HELLO").data).documentSent = none ∧
    (handle_text failingService ("HELLO").data).raised
      = some ServiceFailure.serviceError := by
  decide

/-- C1 (amended): when the completion service raises `ServiceError`, the
pipeline does not recover: `handle_text` has no try/except, the error
propagates out of the handler, and no document — in particular none built
from the original text — is sent; the request fails. -/
theorem C1_error_propagates (generate_content : Str → Except ServiceFailure Str)
    (user_text : Str) (e : ServiceFailure)
    (h : generate_content (gemini_prompt user_text) = Except.error e) :
    (handle_text generate_content user_text).documentSent = none ∧
    (handle_text generate_content user_text).raised = some e := by
  unfold handle_text complete_text_with_gemini
  rw [h]
  exact ⟨rfl, rfl⟩

/-- C1 witness: the amended behaviour at the concrete failing service and
input "HELLO". -/
theorem C1_error_propagates_witness :
    (handle_text failingService ("HELLO").data).documentSent = none ∧
    (handle_text failingService ("HELLO").data).raised
      = some ServiceFailure.serviceError :=
  C1_error_propagates failingService ("HELLO").data ServiceFailure.serviceError rfl

/-- C2 counterexample: with the layout engine putting all blocks on one
page, the document generated from "TITLE" has exactly one physical page
and that page carries no page-number decoration, contradicting the claimed
1-based page number on every page including the first. -/
theorem C2_counterexample :
    (generate_pdf singlePagePaginate ("TITLE").data).length = 1 ∧
    ((generate_pdf singlePagePaginate ("TITLE").data).headD ⟨[], []⟩).pageNumbers
      = [] := by
  decide

/-- C2 (amended): `generate_pdf` passes no page callbacks to the document
builder, so whatever pagination the layout engine produces, no page of the
output carries any page-number decoration. -/
theorem C2_no_page_numbers
    (paginate : List LayoutBlock → List (List LayoutBlock)) (content : Str)
    (p : Page) (hp : p ∈ generate_pdf paginate content) :
    p.pageNumbers = [] :=
  buildPages_no_decoration 1 (paginate (generate_pdf_elements content)) p hp

/-- C2 witness: the amended behaviour at the concrete one-page pagination
of "TITLE". -/
theorem C2_no_page_numbers_witness :
    ((generate_pdf singlePagePaginate ("TITLE").data).headD ⟨[], []⟩).pageNumbers
      = [] :=
  C2_no_page_numbers singlePagePaginate ("TITLE").data _ (by decide)

/-- C3 counterexample: with `GEMINI_API_KEY` absent from the environment
and a completion service that rejects unauthenticated requests, the text
message "HELLO" yields no document — the completion step is not skipped,
and its failure fails the request. -/
theorem C3_counterexample :
    (bot_pipeline emptyEnv keyRequiringService ("HELLO").data).documentSent
      = none := by
  decide

/-- C3 (amended): absence of the API key is never consulted: the module
configures the client with the null key and `handle_text` still invokes
the completion service unconditionally; a document is produced only when
that call succeeds, and it is built from the service's output, not from
the original text with completion skipped. -/
theorem C3_completion_not_skipped (env : Str → Option Str)
    (service : Option Str → Str → Except ServiceFailure Str) (user_text : Str)
    (hkey : env ("GEMINI_API_KEY").data = none) :
    (∀ e, service none (gemini_prompt user_text) = Except.error e →
      (bot_pipeline env service user_text).documentSent = none) ∧
    (∀ completed, service none (gemini_prompt user_text) = Except.ok completed →
      (bot_pipeline env service user_text).documentSent
        = some (("Professional_Project.pdf").data,
            generate_pdf_elements completed)) := by
  constructor
  · intro e he
    unfold bot_pipeline configured_api_key handle_text complete_text_with_gemini
    rw [hkey, he]
  · intro completed hc
    unfold bot_pipeline configured_api_key handle_text complete_text_with_gemini
    rw [hkey, hc]

/-- C3 witness: the amended behaviour at the empty environment and the
key-requiring service on input "HELLO". -/
theorem C3_completion_not_skipped_witness :
    (bot_pipeline emptyEnv keyRequiringService ("HELLO").data).documentSent
      = none :=
  (C3_completion_not_skipped emptyEnv keyRequiringService ("HELLO").data rfl).1
    ServiceFailure.serviceError rfl

/-- C4: `detect_table_data` returns the negative result for any content
with fewer than two comma-containing lines; otherwise it returns at least
two rows, one per comma-containing line in original order with every cell
stripped of surrounding whitespace; on the scenario input it returns
exactly the three expected rows. -/
theorem C4_detect_table_contract (text : Str) :
    ((commaLines text).length < 2 → detect_table_data text = none) ∧
    (2 ≤ (commaLines text).length →
      detect_table_data text
        = some ((commaLines text).map (fun line => (splitOnChar ',' line).map strip)) ∧
      2 ≤ (rowsOf text).length ∧
      ∀ row ∈ rowsOf text, ∀ cell ∈ row, strip cell = cell) ∧
    detect_table_data ("Name, Age, Class\nRam, 14, 8\nShyam, 15, 9").data
      = some [[("Name").data, ("Age").data, ("Class").data],
              [("Ram").data, ("14").data, ("8").data],
              [("Shyam").data, ("15").data, ("9").data]] := by
  have hlen : (rowsOf text).length = (commaLines text).length := by
    unfold rowsOf
    exact List.length_map ..
  refine ⟨?_, ?_, by decide⟩
  · intro h
    rw [detect_table_data_eq, if_neg (by omega)]
  · intro h
    refine ⟨?_, by omega, ?_⟩
    · rw [detect_table_data_eq, if_pos (by omega)]
      rfl
    · intro row hrow cell hcell
      unfold rowsOf at hrow
      obtain ⟨line, hline, rfl⟩ := List.mem_map.mp hrow
      obtain ⟨x, hx, rfl⟩ := List.mem_map.mp hcell
      exact strip_idem x

/-- C4 witness: the contract applied at the scenario input, whose
comma-containing line count satisfies the table branch. -/
theorem C4_detect_table_contract_witness :
    detect_table_data ("Name, Age, Class\nRam, 14, 8\nShyam, 15, 9").data
      = some ((commaLines ("Name, Age, Class\nRam, 14, 8\nShyam, 15, 9").data).map
          (fun line => (splitOnChar ',' line).map strip)) :=
  ((C4_detect_table_contract ("Name, Age, Class\nRam, 14, 8\nShyam, 15, 9").data).2.1
    (by decide)).1

/-- C5: a line classifies as `Blank` exactly when its stripped form is
empty, and in the prose block stream a line becomes a `Spacer` exactly
under the same condition — blank handling depends on nothing else. -/
theorem C5_blank_iff_trimmed_empty (s : Str) :
    (classify s = LineRole.Blank ↔ (strip s).isEmpty = true) ∧
    (line_block s = LayoutBlock.spacer ↔ (strip s).isEmpty = true) := by
  constructor
  · unfold classify
    by_cases h : (strip s).isEmpty = true
    · simp [h]
    · by_cases h2 : is_heading s = true <;> simp [h, h2]
  · unfold line_block
    by_cases h : (strip s).isEmpty = true
    · simp [h]
    · by_cases h2 : is_heading s = true <;> simp [h, h2]

/-- C6: a non-blank fully upper-case string of trimmed length strictly
below the configured threshold (60) classifies as `Heading`; a fully
upper-case string of trimmed length at least 60 classifies as `Body` — the
boundary is exact. -/
theorem C6_heading_threshold (s t : Str) :
    ((strip s).isEmpty = false → (strip s).length < 60 → pyIsUpper s = true →
      classify s = LineRole.Heading) ∧
    (pyIsUpper t = true → 60 ≤ (strip t).length → classify t = LineRole.Body) := by
  constructor
  · intro hne hlen hup
    have hh : is_heading s = true := by
      unfold is_heading
      rw [pyIsUpper_strip]
      simp [hlen, hup]
    simp [classify, hne, hh]
  · intro hup hlen
    have hh : is_heading t = false := by
      unfold is_heading
      rw [if_neg (by omega)]
    have hne : (strip t).isEmpty = false := by
      cases hs : strip t with
      | nil => rw [hs] at hlen; simp at hlen
      | cons a as => simp [hs]
    simp [classify, hne, hh]

/-- C6 witness: "TITLE" (5 upper-case characters) is a heading; a fully
upper-case line of exactly 60 characters is body, pinning the boundary. -/
theorem C6_heading_threshold_witness :
    classify ("TITLE").data = LineRole.Heading ∧
    classify ("AAAAAAAAAAAAAAAAAAAAAAAAAAAAAAAAAAAAAAAAAAAAAAAAAAAAAAAAAAAA").data
      = LineRole.Body :=
  ⟨(C6_heading_threshold ("TITLE").data
      ("AAAAAAAAAAAAAAAAAAAAAAAAAAAAAAAAAAAAAAAAAAAAAAAAAAAAAAAAAAAA").data).1
      (by decide) (by decide) (by decide),
   (C6_heading_threshold ("TITLE").data
      ("AAAAAAAAAAAAAAAAAAAAAAAAAAAAAAAAAAAAAAAAAAAAAAAAAAAAAAAAAAAA").data).2
      (by decide) (by decide)⟩

/-- C7: with no table detected, the element list contains exactly one
block per input line, in original order, each determined by the line's
classification; on "TITLE\n\nThis is a body sentence." the block stream is
exactly heading, spacer, body paragraph. -/
theorem C7_one_block_per_line (content : Str) :
    (detect_table_data content = none →
      generate_pdf_elements content
        = (splitOnChar '\n' content).map (fun line =>
            match classify line with
            | LineRole.Blank => LayoutBlock.spacer
            | LineRole.Heading => LayoutBlock.heading (strip line)
            | LineRole.Body => LayoutBlock.paragraph (strip line)) ∧
      (generate_pdf_elements content).length
        = (splitOnChar '\n' content).length) ∧
    generate_pdf_elements ("TITLE\n\nThis is a body sentence.").data
      = [LayoutBlock.heading ("TITLE").data, LayoutBlock.spacer,
         LayoutBlock.paragraph ("This is a body sentence.").data] := by
  constructor
  · intro h
    constructor
    · unfold generate_pdf_elements
      rw [h]
      exact List.map_congr_left (fun line _ => line_block_eq_classify line)
    · unfold generate_pdf_elements
      rw [h]
      exact List.length_map ..
  · decide

/-- C7 witness: the per-line law applied at the scenario input, which has
no table. -/
theorem C7_one_block_per_line_witness :
    (generate_pdf_elements ("TITLE\n\nThis is a body sentence.").data).length
      = (splitOnChar '\n' ("TITLE\n\nThis is a body sentence.").data).length :=
  ((C7_one_block_per_line ("TITLE\n\nThis is a body sentence.").data).1 (by decide)).2

/-- C8: table mode and prose mode are mutually exclusive: a detected table
yields exactly the one-element block stream with the table block and no
classified-line blocks, and with no table detected no table block ever
appears among the emitted blocks. -/
theorem C8_table_prose_exclusive (content : Str) :
    (∀ rows, detect_table_data content = some rows →
      generate_pdf_elements content = [LayoutBlock.tableBlock rows]) ∧
    (detect_table_data content = none →
      ∀ b ∈ generate_pdf_elements content, ∀ rows,
        b ≠ LayoutBlock.tableBlock rows) := by
  constructor
  · intro rows h
    unfold generate_pdf_elements
    rw [h]
  · intro h b hb rows
    unfold generate_pdf_elements at hb
    rw [h] at hb
    obtain ⟨line, hline, rfl⟩ := List.mem_map.mp hb
    unfold line_block
    by_cases h1 : (strip line).isEmpty = true
    · simp [h1]
    · by_cases h2 : is_heading line = true <;> simp [h1, h2]

/-- C8 witness: the exclusivity applied at a concrete table input and a
concrete prose block. -/
theorem C8_table_prose_exclusive_witness :
    generate_pdf_elements ("x,1\ny,2").data
      = [LayoutBlock.tableBlock
          [[("x").data, ("1").data], [("y").data, ("2").data]]] ∧
    LayoutBlock.heading ("TITLE").data ≠ LayoutBlock.tableBlock [] :=
  ⟨(C8_table_prose_exclusive ("x,1\ny,2").data).1 _ (by decide),
   (C8_table_prose_exclusive ("TITLE").data).2 (by decide)
     (LayoutBlock.heading ("TITLE").data) (by decide) []⟩

/-- C9: in prose mode every heading or paragraph block carries exactly the
stripped form of one of the input lines: block text never keeps leading or
trailing whitespace of the raw line. -/
theorem C9_block_text_trimmed (content : Str)
    (h : detect_table_data content = none) :
    ∀ b ∈ generate_pdf_elements content, ∀ t,
      (b = LayoutBlock.heading t ∨ b = LayoutBlock.paragraph t) →
      strip t = t ∧ ∃ line ∈ splitOnChar '\n' content, t = strip line := by
  intro b hb t ht
  unfold generate_pdf_elements at hb
  rw [h] at hb
  obtain ⟨line, hline, rfl⟩ := List.mem_map.mp hb
  have ht2 : t = strip line := by
    unfold line_block at ht
    by_cases h1 : (strip line).isEmpty = true
    · rcases ht with hc | hc <;> simp [h1] at hc
    · by_cases h2 : is_heading line = true
      · rcases ht with hc | hc <;> simp [h1, h2] at hc
        exact hc.symm
      · rcases ht with hc | hc <;> simp [h1, h2] at hc
        exact hc.symm
  subst ht2
  exact ⟨strip_idem line, ⟨line, hline, rfl⟩⟩

/-- C9 witness: the trimming law at the concrete input with a padded
heading line. -/
theorem C9_block_text_trimmed_witness :
    strip ("TITLE").data = ("TITLE").data ∧
    ∃ line ∈ splitOnChar '\n' ("  TITLE  \nbody").data,
      ("TITLE").data = strip line :=
  C9_block_text_trimmed ("  TITLE  \nbody").data (by decide)
    (LayoutBlock.heading ("TITLE").data) (by decide) ("TITLE").data (Or.inl rfl)

/-- C10: a line qualifies as a table row exactly by containing a comma: a
line with n commas always splits into n+1 cells, cells may be empty (a
lone comma gives two empty cells), and any content with at least two
comma-containing lines is treated as a table. -/
theorem C10_comma_row_rule (line text : Str) :
    (splitOnChar ',' line).length = line.count ',' + 1 ∧
    (splitOnChar ',' (",").data).map strip = [[], []] ∧
    (2 ≤ (commaLines text).length → detect_table_data text ≠ none) ∧
    detect_table_data (",\n,").data = some [[[], []], [[], []]] := by
  refine ⟨length_splitOnChar ',' line, by decide, ?_, by decide⟩
  intro h
  have hlen : (rowsOf text).length = (commaLines text).length := by
    unfold rowsOf
    exact List.length_map ..
  rw [detect_table_data_eq, if_pos (by omega)]
  simp

/-- C10 witness: the comma-row rule applied at the two-comma-line
content. -/
theorem C10_comma_row_rule_witness :
    detect_table_data (",\n,").data ≠ none :=
  (C10_comma_row_rule [] (",\n,").data).2.2.1 (by decide)

end ProjectBot
